import Mathlib

/-!
Verification development for the jexl expression parser and the NGSI
context server of the iotagent-node-lib repository.

The JavaScript source is embedded shallowly: JS values become the
inductive `JexlValue`, thrown exceptions become `Except JsError`, and the
JS number builtins (`Number.parseInt`, `Number.parseFloat`, `String(...)`,
`isNaN`) are modelled over `Rat` (JS numbers are IEEE doubles; on the
decimal literals this code manipulates the rational model agrees with the
double semantics).  Hexadecimal prefixes, exponents and `Infinity` are not
modelled: none of the verified properties touch them.
-/

namespace NGSI

/-- A JavaScript runtime value as used by the jexl parser: numbers
(including the distinguished `nan`), booleans, strings, `null` and
`undefined`. -/
inductive JexlValue where
  | num (q : Rat)
  | nan
  | bool (b : Bool)
  | str (s : String)
  | nullv
  | undef
deriving DecidableEq, Repr

/-- Errors thrown by the embedded JS code: `invalidExpression e` models
`errors.InvalidExpression` (the errors module is external to the two
embedded files; only its constructor identity matters here),
`jexlInternal` models any error thrown inside the jexl library
(lexer or evaluation errors), and `typeError` models a JS `TypeError`
such as setting a property of `undefined`. -/
inductive JsError where
  | invalidExpression (e : String)
  | jexlInternal
  | typeError
deriving DecidableEq, Repr

deriving instance DecidableEq for Except

/-- JS whitespace recognised by `parseInt`/`parseFloat`. -/
def isJsWs (c : Char) : Bool :=
  c = ' ' || c = '\t' || c = '\n' || c = '\r'

/-- Value of a list of decimal digit characters. -/
def digitsToNat (ds : List Char) : Nat :=
  ds.foldl (fun n c => 10 * n + (c.toNat - 48)) 0

/-- Shared front end of `Number.parseInt` and `Number.parseFloat`:
skip leading whitespace, read an optional sign, and split off the leading
run of decimal digits.  Returns the sign, the integer digits, and the
remaining characters. -/
def parsedCore (s : String) : Int × List Char × List Char :=
  let l := s.toList.dropWhile isJsWs
  let sl : Int × List Char :=
    match l with
    | c :: r => if c = '-' then (-1, r) else if c = '+' then (1, r) else (1, l)
    | [] => (1, l)
  (sl.1, sl.2.takeWhile Char.isDigit, sl.2.dropWhile Char.isDigit)

/-- Model of `Number.parseInt(s)` (radix 10 path): `none` is JS `NaN`. -/
def parseIntJs (s : String) : Option Int :=
  let (sign, ds, _) := parsedCore s
  if ds.isEmpty then none else some (sign * (digitsToNat ds : Int))

/-- The digits of the fractional part: the run of digits after a leading
decimal point, if any. -/
def fracDigitsOf : List Char → List Char
  | '.' :: r => r.takeWhile Char.isDigit
  | _ => []

/-- Model of `Number.parseFloat(s)` on decimal literals: `none` is JS
`NaN`.  The value `sign * (D + F / 10^k)` is built with `mkRat` over the
common denominator `10^k` (the Batteries rational operators are
irreducible, which would block concrete evaluation in proofs). -/
def parseFloatJs (s : String) : Option Rat :=
  let (sign, ds, rest) := parsedCore s
  let fs := fracDigitsOf rest
  if ds.isEmpty && fs.isEmpty then none
  else some (mkRat (sign * ((digitsToNat ds * 10 ^ fs.length + digitsToNat fs : Nat) : Int))
    (10 ^ fs.length))

/-- Floor of a rational as an integer (Euclidean division by the positive
denominator). -/
def ratFloor (q : Rat) : Int :=
  q.num.ediv (q.den : Int)

/-- Kernel-reducible rational addition (the Batteries `Rat.add` is
irreducible; this `mkRat` form denotes the same rational). -/
def ratAdd (a b : Rat) : Rat :=
  mkRat (a.num * (b.den : Int) + b.num * (a.den : Int)) (a.den * b.den)

/-- Kernel-reducible rational subtraction. -/
def ratSub (a b : Rat) : Rat :=
  mkRat (a.num * (b.den : Int) - b.num * (a.den : Int)) (a.den * b.den)

/-- Kernel-reducible rational multiplication. -/
def ratMul (a b : Rat) : Rat :=
  mkRat (a.num * b.num) (a.den * b.den)

/-- A rational from an integer. -/
def ratOfInt (n : Int) : Rat :=
  mkRat n 1

/-- Decimal digits of the fractional part `0 ≤ r < 1`, with fuel (all
values reached in this development have terminating decimal
expansions). -/
def fracPartStr : Nat → Rat → String
  | 0, _ => ""
  | fuel + 1, r =>
    if r = 0 then ""
    else
      let r10 := ratMul r 10
      let d := ratFloor r10
      toString d ++ fracPartStr fuel (ratSub r10 (ratOfInt d))

/-- JS number-to-string for a nonnegative rational: integers print with no
decimal point, fractional values with one. -/
def ratToJsStringNonneg (q : Rat) : String :=
  let ip : Nat := (ratFloor q).toNat
  let fs := fracPartStr 30 (ratSub q (ratOfInt (ip : Int)))
  if fs = "" then toString ip else toString ip ++ "." ++ fs

/-- Model of JS `String(n)` for a number `n`. -/
def ratToJsString (q : Rat) : String :=
  if q < 0 then "-" ++ ratToJsStringNonneg (-q) else ratToJsStringNonneg q

/-- Model of JS `String(v)`. -/
def jsToString : JexlValue → String
  | .num q => ratToJsString q
  | .nan => "NaN"
  | .bool true => "true"
  | .bool false => "false"
  | .str s => s
  | .nullv => "null"
  | .undef => "undefined"

/-- Model of JS `v.toString()`: unlike `String(v)` this throws a
`TypeError` on `null` and `undefined`. -/
def toStringMethod : JexlValue → Except JsError String
  | .nullv => .error .typeError
  | .undef => .error .typeError
  | v => .ok (jsToString v)

/-- Model of JS `Number(s)` for a string: trims whitespace, maps the empty
string to `0`, and requires the whole remainder to be a decimal literal. -/
def numberFromString (s : String) : Option Rat :=
  let l := (s.toList.dropWhile isJsWs).reverse.dropWhile isJsWs |>.reverse
  if l.isEmpty then some 0
  else
    let (sign, l1) : Int × List Char := match l with
      | '-' :: r => (-1, r)
      | '+' :: r => (1, r)
      | _ => (1, l)
    let ds := l1.takeWhile Char.isDigit
    let rest := l1.dropWhile Char.isDigit
    let (fs, rest2) : List Char × List Char := match rest with
      | '.' :: r => (r.takeWhile Char.isDigit, r.dropWhile Char.isDigit)
      | _ => ([], rest)
    if (ds.isEmpty && fs.isEmpty) || !rest2.isEmpty then none
    else some (mkRat (sign * ((digitsToNat ds * 10 ^ fs.length + digitsToNat fs : Nat) : Int))
      (10 ^ fs.length))

/-- Model of JS `ToNumber(v)`: `none` is `NaN`.  `isNaN(v)` is
`(jsToNumber v).isNone`. -/
def jsToNumber : JexlValue → Option Rat
  | .num q => some q
  | .nan => none
  | .bool b => some (if b then 1 else 0)
  | .str s => numberFromString s
  | .nullv => some 0
  | .undef => none

/-- JS `ToInteger` truncation (toward zero) of a number. -/
def ratTrunc (q : Rat) : Int :=
  if q < 0 then -ratFloor (-q) else ratFloor q

/-- Integer coercion of a jexl value as used by transform arguments:
`ToInteger`, with `NaN` mapping to `0`. -/
def jsToIntArg (v : JexlValue) : Int :=
  match jsToNumber v with
  | some q => ratTrunc q
  | none => 0

/-! ## The jexl evaluation context

A jexl context is a plain JS object mapping variable names to values.
It is modelled as an association list with unique keys: assigning to an
existing key overwrites its binding in place, assigning a fresh key
appends it. -/

/-- The variable context handed to the jexl evaluator. -/
abbrev Context := List (String × JexlValue)

/-- The empty context (`var context = \x7b\x7d` in the source). -/
def emptyContext : Context := []

/-- JS object property assignment `context[name] = value`. -/
def ctxSet (c : Context) (k : String) (v : JexlValue) : Context :=
  if c.any (fun p => p.1 = k) then
    c.map (fun p => if p.1 = k then (k, v) else p)
  else
    c ++ [(k, v)]

/-- JS object property read `context[name]` (`none` is `undefined`). -/
def ctxGet (c : Context) (k : String) : Option JexlValue :=
  (c.find? (fun p => p.1 = k)).map Prod.snd

/-- `Object.keys(context)`. -/
def ctxKeys (c : Context) : List String :=
  c.map Prod.fst

/-! ## Jexl expressions

The jexl grammar fragment the repository exercises: literals,
identifiers, binary `+`, and transform application (`arg|name`, with any
extra literal arguments).  `malformed` stands for source text the jexl
lexer throws on; `unparsable` stands for text the lexer tokenizes (its
identifier tokens are recorded) but the parser or evaluator throws on. -/

/-- A jexl expression. -/
inductive JexlExpr where
  | lit (v : JexlValue)
  | ident (name : String)
  | plus (a b : JexlExpr)
  | transform (name : String) (arg : JexlExpr) (extra : List JexlValue)
  | malformed (src : String)
  | unparsable (idents : List String) (src : String)
deriving DecidableEq, Repr

/-- Key of a `JexlExpr` for error payloads (the JS code stores the original
expression string in `InvalidExpression`; the model stores a rendering). -/
def exprKey : JexlExpr → String
  | .lit _ => "lit"
  | .ident n => n
  | .plus a b => exprKey a ++ "+" ++ exprKey b
  | .transform n arg _ => exprKey arg ++ "|" ++ n
  | .malformed s => s
  | .unparsable _ s => s

/-- The transforms registered at module load:
`jexl.addTransform` of `indexOf`, `length`, `trim` and `substr`. -/
def registeredTransforms : List String :=
  ["indexOf", "length", "trim", "substr"]

/-- Embedding of `isTransform`: `jexl.getTransform(identifier)` is
`undefined` exactly when the name was never registered. -/
def isTransform (identifier : String) : Bool :=
  registeredTransforms.contains identifier

/-- Embedding of `lexer.tokenize(expression)` followed by the filter for
`token.type === 'identifier'`: the identifier tokens of the expression in
source order (a transform name appears as an identifier token after its
argument).  A `malformed` expression makes the lexer throw. -/
def identTokens : JexlExpr → Except JsError (List String)
  | .lit _ => .ok []
  | .ident n => .ok [n]
  | .plus a b => do
    let xa ← identTokens a
    let xb ← identTokens b
    .ok (xa ++ xb)
  | .transform n arg _ => do
    let xa ← identTokens arg
    .ok (xa ++ [n])
  | .malformed _ => .error .jexlInternal
  | .unparsable idents _ => .ok idents

/-- First index of `need` in `hay` starting at `i`, `-1` when absent. -/
def indexOfAux (hay need : List Char) : Nat → Nat → Int
  | 0, _ => -1
  | fuel + 1, i =>
    if need.isPrefixOf (hay.drop i) then (i : Int)
    else indexOfAux hay need fuel (i + 1)

/-- Model of JS `String.prototype.indexOf`. -/
def strIndexOf (s sub : String) : Int :=
  indexOfAux s.toList sub.toList (s.toList.length + 1) 0

/-- Model of JS `String.prototype.trim` (over the whitespace set of
`parseInt`/`parseFloat`). -/
def jsTrim (s : String) : String :=
  String.mk (((s.toList.dropWhile isJsWs).reverse.dropWhile isJsWs).reverse)

/-- Model of JS `String.prototype.substr(start, len)`. -/
def jsSubstr (s : String) (start len : JexlValue) : String :=
  let l := s.toList
  let n := l.length
  let st0 := jsToIntArg start
  let st : Nat := if st0 < 0 then (max ((n : Int) + st0) 0).toNat else min st0.toNat n
  let ln : Int := match len with
    | .undef => (n : Int) - (st : Int)
    | v => jsToIntArg v
  let ln2 : Nat := if ln ≤ 0 then 0 else min ln.toNat (n - st)
  String.mk ((l.drop st).take ln2)

/-- Embedding of the four registered transforms (lines 33-36 of the jexl
parser): each coerces its principal argument with `String(...)` first.
Applying an unregistered transform throws inside jexl. -/
def applyTransform (name : String) (v : JexlValue) (extra : List JexlValue) : Except JsError JexlValue :=
  if name = "indexOf" then
    .ok (.num ((strIndexOf (jsToString v) (jsToString (extra.headD .undef)) : Int) : Rat))
  else if name = "length" then
    .ok (.num (((jsToString v).length : Nat) : Rat))
  else if name = "trim" then
    .ok (.str (jsTrim (jsToString v)))
  else if name = "substr" then
    .ok (.str (jsSubstr (jsToString v) (extra.headD .undef) ((extra.drop 1).headD .undef)))
  else .error .jexlInternal

/-- JS binary `+`: string concatenation when either side is a string,
numeric addition otherwise (with `NaN` absorbing). -/
def jsPlus (a b : JexlValue) : JexlValue :=
  match a, b with
  | .str s, _ => .str (s ++ jsToString b)
  | _, .str s => .str (jsToString a ++ s)
  | _, _ =>
    match jsToNumber a, jsToNumber b with
    | some x, some y => .num (ratAdd x y)
    | _, _ => .nan

/-- Embedding of `jexl.evalSync(expression, context)`: an identifier
absent from the context evaluates to `undefined` (jexl does not throw for
unknown identifiers), `malformed`/`unparsable` text throws. -/
def evalSyncJexl : JexlExpr → Context → Except JsError JexlValue
  | .lit v, _ => .ok v
  | .ident n, ctx => .ok ((ctxGet ctx n).getD .undef)
  | .plus a b, ctx => do
    let va ← evalSyncJexl a ctx
    let vb ← evalSyncJexl b ctx
    .ok (jsPlus va vb)
  | .transform n arg extra, ctx => do
    let v ← evalSyncJexl arg ctx
    applyTransform n v extra
  | .malformed _, _ => .error .jexlInternal
  | .unparsable _ _, _ => .error .jexlInternal

/-! ## The jexl parser module (`lib/plugins/jexlParser.js`) -/

/-- One entry of the flat attribute list handed to `extractContext`. -/
structure CtxAttr where
  name : String
  value : JexlValue
deriving DecidableEq, Repr

/-- The boolean-literal tail of the `extractContext` sniffing chain:
`String(v) === 'true'`, then `String(v) === 'false'`, else the raw
value. -/
def sniffBoolOr (v : JexlValue) : JexlValue :=
  if jsToString v = "true" then .bool true
  else if jsToString v = "false" then .bool false
  else v

/-- The float branch of the sniffing chain: a truthy
`Number.parseFloat(v)` wins, otherwise fall through to the boolean
branch. -/
def sniffFloat (v : JexlValue) : JexlValue :=
  match parseFloatJs (jsToString v) with
  | some q => if q ≠ 0 then .num q else sniffBoolOr v
  | none => sniffBoolOr v

/-- The loop body of `extractContext`: type sniffing of one raw value.
`if (Number.parseInt(v)) ... else if (Number.parseFloat(v)) ... else if
(String(v) === 'true') ... else if (String(v) === 'false') ... else raw`.
The `if` conditions are JS truthiness checks, so a parse yielding `NaN`
or `0` falls through to the next branch. -/
def sniffValue (v : JexlValue) : JexlValue :=
  match parseIntJs (jsToString v) with
  | some n => if n ≠ 0 then .num (n : Rat) else sniffFloat v
  | none => sniffFloat v

/-- Embedding of `extractContext(attributeList)` (jexl parser lines
38-58): builds the evaluation context by iterating the attribute list in
order and assigning `context[name] = value` for each sniffed value. -/
def extractContext (attributeList : List CtxAttr) : Context :=
  attributeList.foldl (fun ctx a => ctxSet ctx a.name (sniffValue a.value)) emptyContext

/-- Embedding of `applyExpression(expression, context, typeInformation)`
(the `typeInformation` argument is ignored by the source and omitted
here): plain `jexl.evalSync`, with a missing expression making jexl
throw. -/
def applyExpression (expression : Option JexlExpr) (context : Context) : Except JsError JexlValue :=
  match expression with
  | none => .error .jexlInternal
  | some e => evalSyncJexl e context

/-- An attribute definition carrying a derivation expression, as consumed
by `expressionApplier` (`object_id` is `none` when absent or falsy, and
`expression` is `none` when absent or the empty string). -/
structure ExprAttr where
  name : String
  type : String
  object_id : Option String
  expression : Option JexlExpr
deriving DecidableEq, Repr

/-- An NGSI attribute as produced by the parser and the context server. -/
structure NgsiAttribute where
  name : String
  type : String
  value : JexlValue
  object_id : Option String
deriving DecidableEq, Repr

/-- The inner helper `isFloat(value)` of `expressionApplier`:
`!isNaN(value) && value.toString().indexOf('.') !== -1`.  The `&&`
short-circuits, so `value.toString()` (which throws on `null` and
`undefined`) only runs when the value is not `NaN`. -/
def isFloat (value : JexlValue) : Except JsError Bool :=
  if (jsToNumber value).isNone then .ok false
  else (toStringMethod value).map (fun s => s.toList.contains '.')

/-- Embedding of `expressionApplier(context, typeInformation)` applied to
one attribute (jexl parser lines 64-106).  `ngsi2` is the value of the
external `config.checkNgsi2()`.  The evaluated result is coerced through
the `if`/`else if` chain of the source: `Number` with a float-looking
result, `Number` with a truthy integer parse, `Boolean` (strict equality
against the strings 'true' and '1'), `None`, and the `String(...)`
fallback for everything else. -/
def expressionApplier (ngsi2 : Bool) (context : Context) (attr : ExprAttr) :
    Except JsError NgsiAttribute := do
  let objectId := if ngsi2 && attr.object_id.isSome then attr.object_id else none
  let raw ← applyExpression attr.expression context
  if attr.type = "Number" then
    let fl ← isFloat raw
    if fl then
      let fv : JexlValue := match parseFloatJs (jsToString raw) with
        | some q => .num q
        | none => .nan
      pure ⟨attr.name, attr.type, fv, objectId⟩
    else
      match parseIntJs (jsToString raw) with
      | some n =>
        if n ≠ 0 then pure ⟨attr.name, attr.type, .num (n : Rat), objectId⟩
        else pure ⟨attr.name, attr.type, .str (jsToString raw), objectId⟩
      | none => pure ⟨attr.name, attr.type, .str (jsToString raw), objectId⟩
  else if attr.type = "Boolean" then
    pure ⟨attr.name, attr.type,
      .bool (raw == JexlValue.str "true" || raw == JexlValue.str "1"), objectId⟩
  else if attr.type = "None" then
    pure ⟨attr.name, attr.type, .nullv, objectId⟩
  else
    pure ⟨attr.name, attr.type, .str (jsToString raw), objectId⟩

/-- Embedding of `contextAvailable(expression, context)` (jexl parser
lines 112-135), instrumented with the number of `jexl.evalSync` calls
performed (the evaluation side effect): tokenize, filter the identifier
tokens, accept each that is a context key or a registered transform; only
when all pass is the expression evaluated.  Any exception from the `try`
block (lexer or evaluation) is converted to `InvalidExpression`. -/
def contextAvailableCounting (expression : JexlExpr) (context : Context) :
    Except JsError (Bool × Nat) :=
  let body : Except JsError (Bool × Nat) := do
    let identifiers ← identTokens expression
    let keys := ctxKeys context
    let validContext := identifiers.all (fun idf => keys.contains idf || isTransform idf)
    if validContext then do
      let _ ← evalSyncJexl expression context
      pure (validContext, 1)
    else
      pure (validContext, 0)
  match body with
  | .ok r => .ok r
  | .error _ => .error (.invalidExpression (exprKey expression))

/-- `contextAvailable` as the callers see it: the boolean verdict, or the
`InvalidExpression` throw. -/
def contextAvailable (expression : JexlExpr) (context : Context) : Except JsError Bool :=
  (contextAvailableCounting expression context).map Prod.fst

/-- JS `Array.prototype.filter` with a predicate that may throw: the
callback runs left to right and a throw aborts the whole call. -/
def filterExc (p : α → Except ε Bool) : List α → Except ε (List α)
  | [] => .ok []
  | a :: rest => do
    let b ← p a
    let r ← filterExc p rest
    pure (if b then a :: r else r)

/-- JS `Array.prototype.map` with a function that may throw. -/
def mapExc (f : α → Except ε β) : List α → Except ε (List β)
  | [] => .ok []
  | a :: rest => do
    let b ← f a
    let r ← mapExc f rest
    pure (b :: r)

/-- Embedding of `processExpressionAttributes(typeInformation, list,
context)` (jexl parser lines 137-143; the unused `typeInformation` is
replaced by the `ngsi2` flag that `expressionApplier` reads from the
external config): filter the list to items whose `expression` field is
truthy and whose context check passes, then map the survivors through
`expressionApplier`. -/
def processExpressionAttributes (ngsi2 : Bool) (list : List ExprAttr) (context : Context) :
    Except JsError (List NgsiAttribute) := do
  let survivors ← filterExc
    (fun item =>
      match item.expression with
      | none => pure false
      | some e => contextAvailable e context)
    list
  mapExc (expressionApplier ngsi2 context) survivors

/-- The boolean the filter of `processExpressionAttributes` computes for
an item whose context check does not throw. -/
def passesContextCheck (context : Context) (item : ExprAttr) : Bool :=
  match item.expression with
  | none => false
  | some e =>
    match contextAvailable e context with
    | .ok b => b
    | .error _ => false

/-! ## The context server module (`lib/services/northBound` context server)

The module-level mutable registrations (`updateHandler`, `commandHandler`,
`queryHandler`, `notificationHandler`, `notificationMiddlewares`) become
an explicit state record; the setters and `clear` become state
transformers.  Handlers themselves are opaque to this core, so the record
is polymorphic in the handler payload type. -/

/-- The process-wide registration state of the context server. -/
structure ServerState (H : Type) where
  updateHandler : Option H
  commandHandler : Option H
  queryHandler : Option H
  notificationHandler : Option H
  notificationMiddlewares : List H
deriving DecidableEq, Repr

/-- Embedding of `setUpdateHandler(newHandler)`. -/
def setUpdateHandler (s : ServerState H) (newHandler : H) : ServerState H :=
  { s with updateHandler := some newHandler }

/-- Embedding of `setCommandHandler(newHandler)`. -/
def setCommandHandler (s : ServerState H) (newHandler : H) : ServerState H :=
  { s with commandHandler := some newHandler }

/-- Embedding of `setQueryHandler(newHandler)`. -/
def setQueryHandler (s : ServerState H) (newHandler : H) : ServerState H :=
  { s with queryHandler := some newHandler }

/-- Embedding of `setNotificationHandler(newHandler)`. -/
def setNotificationHandler (s : ServerState H) (newHandler : H) : ServerState H :=
  { s with notificationHandler := some newHandler }

/-- Embedding of `addNotificationMiddleware(newMiddleware)`. -/
def addNotificationMiddleware (s : ServerState H) (newMiddleware : H) : ServerState H :=
  { s with notificationMiddlewares := s.notificationMiddlewares ++ [newMiddleware] }

/-- Embedding of `clear(callback)` (context server lines 1360-1369): the
exact list of assignments the source performs — the middleware chain, the
notification handler, the command handler and the update handler.  The
trailing callback invocation is pure control flow and is dropped. -/
def clear (s : ServerState H) : ServerState H :=
  { s with
    notificationMiddlewares := []
    notificationHandler := none
    commandHandler := none
    updateHandler := none }

/-- Outcome of the handler-presence gate at the top of a request
handler. -/
inductive HandlerOutcome where
  | proceed
  | handlerMissing (message : String)
deriving DecidableEq, Repr

/-- The gate of `handleUpdateNgsi1`/`handleUpdateNgsi2`:
`if (updateHandler || commandHandler)` proceed, else respond with the
handler-not-found error. -/
def handleUpdateGate (s : ServerState H) : HandlerOutcome :=
  if s.updateHandler.isSome || s.commandHandler.isSome then .proceed
  else .handlerMissing "Update handler not found"

/-- The gate of `handleNotificationNgsi1`/`handleNotificationNgsi2`:
`if (notificationHandler)` proceed, else respond with the
handler-not-found error. -/
def handleNotificationGate (s : ServerState H) : HandlerOutcome :=
  if s.notificationHandler.isSome then .proceed
  else .handlerMissing "Notification handler not found"

/-! ## Update-action generation: the attribute/command split -/

/-- A command declaration of a device. -/
structure DeviceCommand where
  name : String
  type : String
deriving DecidableEq, Repr

/-- The slice of a (configuration-merged) device record the split logic
reads: `commands` is `none` when the JS field is `undefined`/`null`. -/
structure Device where
  id : String
  type : String
  commands : Option (List DeviceCommand)
  polling : Bool
deriving DecidableEq, Repr

/-- The labelled inner loop of `generateUpdateActionsNgsi1.splitUpdates`:
each attribute goes to `commands` when its name matches some declared
command name (`continue attributeLoop` after the first match) and to
`attributes` otherwise. -/
def v1SplitLoop (cmds : List DeviceCommand) : List NgsiAttribute → List NgsiAttribute × List NgsiAttribute
  | [] => ([], [])
  | a :: rest =>
    let r := v1SplitLoop cmds rest
    if cmds.any (fun c => c.name = a.name) then (r.1, a :: r.2) else (a :: r.1, r.2)

/-- Embedding of `splitUpdates` inside `generateUpdateActionsNgsi1`
(context server lines 337-359): when the device declares no commands the
whole attribute list is passed through unsplit. -/
def splitUpdatesNgsi1 (device : Device) (ctxAttributes : List NgsiAttribute) :
    List NgsiAttribute × List NgsiAttribute :=
  match device.commands with
  | none => (ctxAttributes, [])
  | some cmds => v1SplitLoop cmds ctxAttributes

/-- The body of one NGSIv2 entity key: `\x7btype, value\x7d`. -/
structure Ngsi2AttrBody where
  type : String
  value : JexlValue
deriving DecidableEq, Repr

/-- An NGSIv2 entity as received by the update handler: the reserved
`id`/`type` keys (JS string values) and the remaining keys in insertion
order, each mapping to an attribute body. -/
structure Ngsi2Entity where
  id : Option String
  type : Option String
  attrs : List (String × Ngsi2AttrBody)
deriving DecidableEq, Repr

/-- The attribute built from an entity key by either v2 loop: the body
with its `name` field set to the key. -/
def mkV2Attribute (kv : String × Ngsi2AttrBody) : NgsiAttribute :=
  ⟨kv.1, kv.2.type, kv.2.value, none⟩

/-- The first (commands) loop of `generateUpdateActionsNgsi2.splitUpdates`:
every entity key matching a declared command name is pushed onto
`commands`. -/
def v2CommandsLoop (cmds : List DeviceCommand) : List (String × Ngsi2AttrBody) → List NgsiAttribute
  | [] => []
  | kv :: rest =>
    if cmds.any (fun c => c.name = kv.1) then mkV2Attribute kv :: v2CommandsLoop cmds rest
    else v2CommandsLoop cmds rest

/-- The second (attributes) loop of
`generateUpdateActionsNgsi2.splitUpdates`: every key other than `id` and
`type` is pushed onto `attributes` — with no exclusion of the keys the
first loop already classified as commands. -/
def v2AttributesLoop : List (String × Ngsi2AttrBody) → List NgsiAttribute
  | [] => []
  | kv :: rest =>
    if kv.1 ≠ "id" ∧ kv.1 ≠ "type" then mkV2Attribute kv :: v2AttributesLoop rest
    else v2AttributesLoop rest

/-- Embedding of `splitUpdates` inside `generateUpdateActionsNgsi2`
(context server lines 464-496): the pair `(attributes, commands)` handed
to `createActionsArray`. -/
def splitUpdatesNgsi2 (device : Device) (entity : Ngsi2Entity) :
    List NgsiAttribute × List NgsiAttribute :=
  let commandsRes := match device.commands with
    | none => []
    | some cmds => v2CommandsLoop cmds entity.attrs
  (v2AttributesLoop entity.attrs, commandsRes)

/-- Whether an attribute name matches a declared command of the device
(the classification criterion of both split loops). -/
def deviceCmdMatch (device : Device) (n : String) : Bool :=
  match device.commands with
  | none => false
  | some cmds => cmds.any (fun c => c.name = n)

/-! ## v1 update response assembly -/

/-- A v1 context element of an update request body. -/
structure ContextElementV1 where
  id : String
  type : String
  attributes : List NgsiAttribute
deriving DecidableEq, Repr

/-- A v1 status code object. -/
structure StatusCode where
  code : Nat
  reasonPhrase : String
deriving DecidableEq, Repr

/-- One entry of `contextResponses`. -/
structure ContextResponseV1 where
  id : String
  type : String
  isPattern : Bool
  attributes : List NgsiAttribute
  statusCode : StatusCode
deriving DecidableEq, Repr

/-- The inner blanking loop of `createUpdateResponse` for the context
element at (outer) index `i`: the source iterates `j` over the attribute
list but assigns `attributes[i].value = ''` each time, so only the
attribute at position `i` is blanked; when the list is nonempty and `i`
is out of range, `attributes[i]` is `undefined` and the assignment throws
a `TypeError`. -/
def blankAttributeAt (i : Nat) (attrs : List NgsiAttribute) : Except JsError (List NgsiAttribute) :=
  if attrs.length = 0 then .ok attrs
  else if i < attrs.length then
    .ok (attrs.mapIdx (fun j a => if j = i then { a with value := .str "" } else a))
  else .error .typeError

/-- The element loop of `createUpdateResponse`, carrying the running
outer index. -/
def createUpdateResponseFrom : List ContextElementV1 → Nat → Except JsError (List ContextResponseV1)
  | [], _ => .ok []
  | e :: rest, i => do
    let blanked ← blankAttributeAt i e.attributes
    let tail ← createUpdateResponseFrom rest (i + 1)
    .ok (⟨e.id, e.type, false, blanked, ⟨200, "OK"⟩⟩ :: tail)

/-- Embedding of `createUpdateResponse(req, res, results)` (context
server lines 213-242) applied to `req.body.contextElements`: one
`contextResponse` per context element, `statusCode 200 OK`,
`isPattern false`, and the attribute lists after the blanking loops. -/
def createUpdateResponse (contextElements : List ContextElementV1) :
    Except JsError (List ContextResponseV1) :=
  createUpdateResponseFrom contextElements 0

/-! ## v2 query pre-checks -/

/-- An entry of the `entities` array of a v2 batch query. -/
structure QueryEntityV2 where
  id : Option String
  type : Option String
  idPattern : Option String
deriving DecidableEq, Repr

/-- The body of a v2 `/v2/op/query` request. -/
structure QueryBodyV2 where
  entities : List QueryEntityV2
  attrs : Option (List String)
deriving DecidableEq, Repr

/-- The `contextEntity` object built after the pre-checks. -/
structure ContextEntity where
  id : Option String
  type : Option String
deriving DecidableEq, Repr

/-- An error object as passed to `handleQueryContextRequests`. -/
structure ContextError where
  code : Nat
  name : String
  message : String
deriving DecidableEq, Repr

/-- Embedding of `handleQueryNgsi2` (context server lines 999-1018)
around its pre-checks.  Everything after the checks — `createQueryRequest`
with its `deviceService.getDeviceByName` / `listDevicesWithType` lookups
and the per-device query pipeline — is abstracted as the continuation
`createQueryRequest`, quantified over in the theorems: the rejection
branches are produced without consulting it, which is exactly the
"rejected before any device lookup" property. -/
def handleQueryNgsi2 (createQueryRequest : Option (List String) → ContextEntity → Except ContextError ρ)
    (body : QueryBodyV2) : Except ContextError ρ :=
  match body.entities with
  | [e] =>
    if e.idPattern.isSome then
      .error ⟨400, "BadRequest", "idPattern usage in query"⟩
    else
      createQueryRequest body.attrs ⟨e.id, e.type⟩
  | _ => .error ⟨400, "BadRequest", "more than one entity in query"⟩

/-! ## Supporting lemmas -/

/-- Reading a context built by consing one binding. -/
theorem ctxGet_cons (x : String × JexlValue) (t : Context) (k2 : String) :
    ctxGet (x :: t) k2 = if x.1 = k2 then some x.2 else ctxGet t k2 := by
  by_cases h : x.1 = k2 <;> simp [ctxGet, List.find?_cons, h]

/-- Overwriting the bindings of key `k` does not change reads of another
key. -/
theorem ctxGet_map_ne (l : Context) (k : String) (v : JexlValue) (k2 : String) (h : k2 ≠ k) :
    ctxGet (l.map (fun q => if q.1 = k then (k, v) else q)) k2 = ctxGet l k2 := by
  induction l with
  | nil => rfl
  | cons q r ih =>
    rw [List.map_cons]
    by_cases hq : q.1 = k
    · rw [if_pos hq, ctxGet_cons, ctxGet_cons]
      have hq2 : ¬ (q.1 = k2) := fun hc => h (hq ▸ hc ▸ rfl)
      have hkk2 : ¬ (((k : String), v).1 = k2) := fun hc => h hc.symm
      rw [if_neg hkk2, if_neg hq2, ih]
    · rw [if_neg hq, ctxGet_cons, ctxGet_cons]
      by_cases hq2 : q.1 = k2
      · rw [if_pos hq2, if_pos hq2]
      · rw [if_neg hq2, if_neg hq2, ih]

/-- Overwriting the bindings of a key that occurs makes reads of that key
yield the new value. -/
theorem ctxGet_map_eq (l : Context) (k : String) (v : JexlValue)
    (hany : l.any (fun q => q.1 = k) = true) :
    ctxGet (l.map (fun q => if q.1 = k then (k, v) else q)) k = some v := by
  induction l with
  | nil => simp at hany
  | cons q r ih =>
    rw [List.map_cons]
    by_cases hq : q.1 = k
    · rw [if_pos hq, ctxGet_cons]
      simp
    · rw [List.any_cons] at hany
      have hr : r.any (fun q => q.1 = k) = true := by
        rcases Bool.or_eq_true_iff.mp hany with hh | hh
        · exact absurd (of_decide_eq_true hh) hq
        · exact hh
      rw [if_neg hq, ctxGet_cons, if_neg hq]
      exact ih hr

/-- Appending a fresh binding: reading the fresh key finds it. -/
theorem ctxGet_append_fresh (l : Context) (k : String) (v : JexlValue)
    (hany : l.any (fun q => q.1 = k) = false) :
    ctxGet (l ++ [(k, v)]) k = some v := by
  induction l with
  | nil => simp [ctxGet_cons]
  | cons q r ih =>
    rw [List.any_cons] at hany
    rcases Bool.or_eq_false_iff.mp hany with ⟨h1, h2⟩
    have hq : ¬ (q.1 = k) := of_decide_eq_false h1
    rw [List.cons_append, ctxGet_cons, if_neg hq]
    exact ih h2

/-- Appending a binding for `k` does not change reads of another key. -/
theorem ctxGet_append_ne (l : Context) (k : String) (v : JexlValue) (k2 : String) (h : k2 ≠ k) :
    ctxGet (l ++ [(k, v)]) k2 = ctxGet l k2 := by
  induction l with
  | nil =>
    have hk : ¬ ((k : String) = k2) := fun hc => h hc.symm
    simp [ctxGet_cons, hk, ctxGet]
  | cons q r ih =>
    rw [List.cons_append, ctxGet_cons, ctxGet_cons]
    by_cases hq : q.1 = k2
    · rw [if_pos hq, if_pos hq]
    · rw [if_neg hq, if_neg hq, ih]

/-- The JS object model: after `context[k] = v`, reading `k` yields `v`
and reading any other key is unchanged. -/
theorem ctxGet_ctxSet (c : Context) (k : String) (v : JexlValue) (k2 : String) :
    ctxGet (ctxSet c k v) k2 = if k2 = k then some v else ctxGet c k2 := by
  unfold ctxSet
  by_cases hany : c.any (fun p => p.1 = k) = true
  · rw [if_pos hany]
    by_cases hk : k2 = k
    · subst hk; rw [if_pos rfl]; exact ctxGet_map_eq c k2 v hany
    · rw [if_neg hk]; exact ctxGet_map_ne c k v k2 hk
  · rw [if_neg hany]
    by_cases hk : k2 = k
    · subst hk; rw [if_pos rfl]
      exact ctxGet_append_fresh c k2 v (Bool.eq_false_iff.mpr hany)
    · rw [if_neg hk]; exact ctxGet_append_ne c k v k2 hk

/-- Folding the `extractContext` loop over a list: the binding of `n` is
the coerced value of the last matching entry, falling back to the
starting context. -/
theorem extractContext_go (l : List CtxAttr) (c : Context) (n : String) :
    ctxGet (l.foldl (fun ctx a => ctxSet ctx a.name (sniffValue a.value)) c) n =
      match l.reverse.find? (fun a => a.name = n) with
      | some a => some (sniffValue a.value)
      | none => ctxGet c n := by
  induction l generalizing c with
  | nil => simp
  | cons a rest ih =>
    simp only [List.foldl_cons, List.reverse_cons]
    rw [ih]
    rw [List.find?_append]
    cases hf : rest.reverse.find? (fun x => decide (x.name = n)) with
    | some x => simp
    | none =>
      simp only [Option.none_orElse]
      rw [ctxGet_ctxSet]
      by_cases hn : a.name = n
      · simp [List.find?, hn]
      · have : ¬ (n = a.name) := fun h => hn h.symm
        simp [List.find?, hn, this]

/-- The v1 split loop is the pair of command-name filters. -/
theorem v1SplitLoop_eq (cmds : List DeviceCommand) (attrs : List NgsiAttribute) :
    v1SplitLoop cmds attrs =
      (attrs.filter (fun a => !cmds.any (fun c => c.name = a.name)),
       attrs.filter (fun a => cmds.any (fun c => c.name = a.name))) := by
  induction attrs with
  | nil => rfl
  | cons a rest ih =>
    rw [v1SplitLoop, ih]
    by_cases hm : cmds.any (fun c => c.name = a.name) = true
    · simp [List.filter_cons, hm]
    · simp [List.filter_cons, Bool.eq_false_iff.mpr hm]

/-- The v2 commands loop is the command-name filter mapped through
`mkV2Attribute`. -/
theorem v2CommandsLoop_eq (cmds : List DeviceCommand) (kvs : List (String × Ngsi2AttrBody)) :
    v2CommandsLoop cmds kvs =
      (kvs.filter (fun kv => cmds.any (fun c => c.name = kv.1))).map mkV2Attribute := by
  induction kvs with
  | nil => rfl
  | cons kv rest ih =>
    rw [v2CommandsLoop, ih]
    by_cases hm : cmds.any (fun c => c.name = kv.1) = true
    · simp [List.filter_cons, hm]
    · simp [List.filter_cons, Bool.eq_false_iff.mpr hm]

/-- The v2 attributes loop is the reserved-key filter mapped through
`mkV2Attribute` — it performs no command exclusion. -/
theorem v2AttributesLoop_eq (kvs : List (String × Ngsi2AttrBody)) :
    v2AttributesLoop kvs =
      (kvs.filter (fun kv => kv.1 != "id" && kv.1 != "type")).map mkV2Attribute := by
  induction kvs with
  | nil => rfl
  | cons kv rest ih =>
    rw [v2AttributesLoop, ih]
    by_cases hm : kv.1 ≠ "id" ∧ kv.1 ≠ "type"
    · have hb : (kv.1 != "id" && kv.1 != "type") = true := by
        simp [bne, hm.1, hm.2]
      simp [hm, List.filter_cons, hb]
    · have hb : (kv.1 != "id" && kv.1 != "type") = false := by
        rcases not_and_or.mp hm with hh | hh
        · simp [bne, not_not.mp hh]
        · simp [bne, not_not.mp hh]
      simp [hm, List.filter_cons, hb]

/-- A throw-free filter predicate makes JS `filter` agree with the pure
filter of its boolean verdicts. -/
theorem filterExc_contextCheck (ctx : Context) (list : List ExprAttr)
    (h : ∀ item ∈ list, ∀ e, item.expression = some e → (contextAvailable e ctx).isOk = true) :
    filterExc
      (fun item =>
        match item.expression with
        | none => pure false
        | some e => contextAvailable e ctx)
      list = .ok (list.filter (passesContextCheck ctx)) := by
  induction list with
  | nil => rfl
  | cons a rest ih =>
    have hrest := ih (fun item hm e he => h item (List.mem_cons_of_mem a hm) e he)
    cases ha : a.expression with
    | none =>
      rw [filterExc]
      simp only [ha]
      rw [List.filter_cons]
      have hp : passesContextCheck ctx a = false := by
        simp [passesContextCheck, ha]
      simp [hrest, hp]
    | some e =>
      have hok := h a (List.mem_cons_self a rest) e ha
      cases hca : contextAvailable e ctx with
      | error err => rw [hca] at hok; simp [Except.isOk, Except.toBool] at hok
      | ok b =>
        rw [filterExc]
        simp only [ha]
        rw [List.filter_cons]
        have hp : passesContextCheck ctx a = b := by
          simp [passesContextCheck, ha, hca]
        rw [hca, hp, hrest]
        cases b <;> rfl

/-- The sign produced by the shared parser front end is `1` or `-1`. -/
theorem parsedCore_sign (s : String) : (parsedCore s).1 = 1 ∨ (parsedCore s).1 = -1 := by
  unfold parsedCore
  cases h : s.toList.dropWhile isJsWs with
  | nil => simp [h]
  | cons c r =>
    by_cases hc : c = '-'
    · simp [h, hc]
    · by_cases hc2 : c = '+'
      · simp [h, hc, hc2]
      · simp [h, hc, hc2]

/-- When the float parse of a string is exactly `0`, its integer parse is
`NaN` or `0` (both falsy in JS): the integer digits must all be zeros. -/
theorem parseFloatJs_zero_parseIntJs (s : String) (h : parseFloatJs s = some 0) :
    parseIntJs s = none ∨ parseIntJs s = some 0 := by
  rcases hpc : parsedCore s with ⟨sign, ds, rest⟩
  have hsign : sign = 1 ∨ sign = -1 := by
    have hs := parsedCore_sign s
    rw [hpc] at hs
    exact hs
  unfold parseFloatJs at h
  unfold parseIntJs
  rw [hpc] at h ⊢
  simp only at h ⊢
  set fs : List Char := fracDigitsOf rest with hfs
  by_cases hds : ds.isEmpty
  · left; simp [hds]
  · right
    have hcond : (ds.isEmpty && fs.isEmpty) = false := by
      simp [hds]
    rw [hcond] at h
    simp only [Bool.false_eq_true, if_false] at h
    have heq := Option.some.inj h
    have hP : (10 : Nat) ^ fs.length ≠ 0 := by positivity
    have hnum := (Rat.mkRat_eq_zero hP).mp heq
    have hsne : sign ≠ 0 := by
      rcases hsign with hs | hs <;> rw [hs] <;> decide
    have hcast := (mul_eq_zero.mp hnum).resolve_left hsne
    have hnat : digitsToNat ds * 10 ^ fs.length + digitsToNat fs = 0 := by
      exact_mod_cast hcast
    have hDP : digitsToNat ds * 10 ^ fs.length = 0 := (Nat.add_eq_zero.mp hnat).1
    have hDn : digitsToNat ds = 0 := (Nat.mul_eq_zero.mp hDP).resolve_right hP
    simp [hds, hDn]

/-- A value whose string form float-parses to exactly `0` survives
`sniffValue` unchanged: every numeric branch is falsy and the literal
`true`/`false` comparisons cannot match a numeric-looking string. -/
theorem sniffValue_raw_of_zero (v : JexlValue) (h : parseFloatJs (jsToString v) = some 0) :
    sniffValue v = v := by
  have hint := parseFloatJs_zero_parseIntJs _ h
  have htrue : ¬ (jsToString v = "true") := by
    intro hc
    rw [hc] at h
    exact absurd h (by decide)
  have hfalse : ¬ (jsToString v = "false") := by
    intro hc
    rw [hc] at h
    exact absurd h (by decide)
  have hbo : sniffBoolOr v = v := by
    unfold sniffBoolOr
    rw [if_neg htrue, if_neg hfalse]
  have hfl : sniffFloat v = v := by
    unfold sniffFloat
    rw [h]
    simp [hbo]
  unfold sniffValue
  rcases hint with hi | hi <;> rw [hi]
  · exact hfl
  · exact hfl

/-! ## Claim theorems -/

/-- Claim C3, counterexample.  The claim states that `extractContext` on
`⟨f, "21.5"⟩` produces the float `21.5`.  In the source the first branch
is `if (Number.parseInt(value))`, and `parseInt("21.5")` is the truthy
integer `21`, so the binding is the integer `21`, not `21.5`. -/
theorem claimC3_counterexample :
    ctxGet (extractContext [⟨"f", .str "21.5"⟩]) "f" = some (.num 21)
    ∧ ctxGet (extractContext [⟨"f", .str "21.5"⟩]) "f" ≠ some (.num (mkRat 43 2)) := by
  decide

/-- Claim C3, amended.  `extractContext` classifies with truthy-integer
before truthy-float before boolean-literal before raw precedence:
`"21"` coerces to the integer `21` and `"true"` to the boolean `true` as
the claim states, but `"21.5"` coerces to the integer `21` (the truthy
`parseInt` prefix wins); the float branch only fires when the integer
parse is falsy, e.g. `"0.5"` coerces to the float `0.5`. -/
theorem claimC3_theorem :
    ctxGet (extractContext [⟨"t", .str "21"⟩]) "t" = some (.num 21)
    ∧ ctxGet (extractContext [⟨"f", .str "21.5"⟩]) "f" = some (.num 21)
    ∧ ctxGet (extractContext [⟨"b", .str "true"⟩]) "b" = some (.bool true)
    ∧ ctxGet (extractContext [⟨"g", .str "0.5"⟩]) "g" = some (.num (mkRat 1 2)) := by
  decide

/-- Claim C4, counterexample.  The claim states first-match-wins on
duplicate names; the source loop assigns `context[name] = value` in list
order, so the second entry overwrites the first. -/
theorem claimC4_counterexample :
    ctxGet (extractContext [⟨"a", .str "1"⟩, ⟨"a", .str "2"⟩]) "a" = some (.num 2)
    ∧ ctxGet (extractContext [⟨"a", .str "1"⟩, ⟨"a", .str "2"⟩]) "a" ≠ some (.num 1) := by
  decide

/-- Claim C4, amended.  On duplicate names the *last* entry wins: for
every attribute list, the context binds each name to the coerced value of
the last entry carrying it (formally, the first match in the reversed
list), and to nothing when no entry carries it. -/
theorem claimC4_theorem (attributeList : List CtxAttr) (n : String) :
    ctxGet (extractContext attributeList) n =
      (attributeList.reverse.find? (fun a => a.name = n)).map (fun a => sniffValue a.value) := by
  unfold extractContext
  rw [extractContext_go attributeList emptyContext n]
  cases hf : attributeList.reverse.find? (fun a => a.name = n) with
  | some a => simp
  | none => simp [emptyContext, ctxGet]

/-- Claim C5, counterexample.  The claim states `clear()` unsets all four
handler slots; the source resets the middleware chain and the
notification, command and update handlers but never touches
`queryHandler`, which here keeps its registered value `3`. -/
theorem claimC5_counterexample :
    (clear (ServerState.mk (some 1) (some 2) (some 3) (some 4) [5] : ServerState Nat)).queryHandler
      = some 3 := by
  decide

/-- Claim C5, amended.  After `clear()` the update, command and
notification handler slots are unset and the middleware chain is empty,
while the query handler slot keeps its previous value (the query path has
a built-in default handler, so no request strictly requires it); a
subsequent update or notification request then takes the
handler-not-found error branch instead of invoking a handler. -/
theorem claimC5_theorem (H : Type) (s : ServerState H) :
    clear s = ⟨none, none, s.queryHandler, none, []⟩
    ∧ handleUpdateGate (clear s) = .handlerMissing "Update handler not found"
    ∧ handleNotificationGate (clear s) = .handlerMissing "Notification handler not found" := by
  refine ⟨rfl, ?_, ?_⟩ <;> simp [clear, handleUpdateGate, handleNotificationGate]

/-- Claim C6: the code is wrong.  The blanking loop of
`createUpdateResponse` iterates `j` over the attribute list but indexes
with the outer entity index `i` (`attributes[i].value = ''`), so for a
single entity with attributes `a = "1"` and `b = "2"` only `a` is
blanked and `b` still carries `"2"`; and for a second entity with a
single attribute the write to `attributes[1]` of a length-1 list throws
a `TypeError`.  The spec's write-acknowledgement intent (blank every
attribute of every entity, one `contextResponse` per element with
`statusCode 200`) is explicitly called out in its design notes, making
the index mix-up a slip in the code. -/
theorem claimC6_theorem :
    createUpdateResponse
        [⟨"e1", "T", [⟨"a", "Text", .str "1", none⟩, ⟨"b", "Text", .str "2", none⟩]⟩]
      = .ok [⟨"e1", "T", false,
          [⟨"a", "Text", .str "", none⟩, ⟨"b", "Text", .str "2", none⟩], ⟨200, "OK"⟩⟩]
    ∧ createUpdateResponse
        [⟨"e1", "T", [⟨"a", "Text", .str "1", none⟩]⟩, ⟨"e2", "T", [⟨"c", "Text", .str "3", none⟩]⟩]
      = .error .typeError := by
  decide

/-- Claim C2, counterexample.  The claim states the v1/v2 split is
disjoint with command-name matches winning.  In the v2 split an entity
key `cmd` matching a declared device command lands in *both* output
lists: the attributes loop excludes only the reserved `id`/`type` keys
and never consults the command classification. -/
theorem claimC2_counterexample :
    splitUpdatesNgsi2 ⟨"d1", "T", some [⟨"cmd", "command"⟩], false⟩
        ⟨some "d1", some "T", [("cmd", ⟨"command", .str "go"⟩)]⟩
      = ([⟨"cmd", "command", .str "go", none⟩], [⟨"cmd", "command", .str "go", none⟩]) := by
  decide

/-- Claim C2, amended.  The v1 split is exhaustive and disjoint exactly
as claimed: it is the pair of complementary command-name filters of the
input attribute list, in input order.  The v2 split is *not* disjoint:
its commands list is the command-name filter of the entity keys, but its
attributes list is every non-`id`/`type` key — including the keys already
classified as commands. -/
theorem claimC2_theorem :
    (∀ (device : Device) (attrs : List NgsiAttribute),
        splitUpdatesNgsi1 device attrs =
          (attrs.filter (fun a => !deviceCmdMatch device a.name),
           attrs.filter (fun a => deviceCmdMatch device a.name)))
    ∧ (∀ (device : Device) (entity : Ngsi2Entity),
        splitUpdatesNgsi2 device entity =
          ((entity.attrs.filter (fun kv => kv.1 != "id" && kv.1 != "type")).map mkV2Attribute,
           match device.commands with
           | none => []
           | some cmds =>
             (entity.attrs.filter (fun kv => cmds.any (fun c => c.name = kv.1))).map mkV2Attribute)) := by
  constructor
  · intro device attrs
    unfold splitUpdatesNgsi1 deviceCmdMatch
    cases device.commands with
    | none => simp [List.filter_true]
    | some cmds => exact v1SplitLoop_eq cmds attrs
  · intro device entity
    unfold splitUpdatesNgsi2
    cases device.commands with
    | none => simp [v2AttributesLoop_eq]
    | some cmds => simp [v2AttributesLoop_eq, v2CommandsLoop_eq]

/-- Claim C9: confirmed.  `handleQueryNgsi2` rejects every body whose
`entities` array has length different from one with the 400 `BadRequest`
"more than one entity" error, and every single-entity body using
`idPattern` with the 400 `BadRequest` idPattern error — in both cases
uniformly in the continuation that performs the device lookups, i.e.
before any lookup can run. -/
theorem claimC9_theorem (ρ : Type)
    (cqr : Option (List String) → ContextEntity → Except ContextError ρ) (body : QueryBodyV2) :
    (body.entities.length ≠ 1 →
      handleQueryNgsi2 cqr body = .error ⟨400, "BadRequest", "more than one entity in query"⟩)
    ∧ (∀ e, body.entities = [e] → e.idPattern.isSome = true →
      handleQueryNgsi2 cqr body = .error ⟨400, "BadRequest", "idPattern usage in query"⟩) := by
  constructor
  · intro hlen
    unfold handleQueryNgsi2
    match hent : body.entities with
    | [] => rfl
    | [e] => exact absurd (hent ▸ rfl) hlen
    | e :: f :: rest => rfl
  · intro e hent hpat
    unfold handleQueryNgsi2
    rw [hent]
    simp [hpat]

/-- Claim C9, witness: a two-entity body and a pattern body are rejected
with the exact errors, under a concrete continuation. -/
theorem claimC9_witness :
    handleQueryNgsi2 (fun _ _ => (.ok () : Except ContextError Unit))
        ⟨[⟨some "e1", some "T", none⟩, ⟨some "e2", some "T", none⟩], none⟩
      = .error ⟨400, "BadRequest", "more than one entity in query"⟩
    ∧ handleQueryNgsi2 (fun _ _ => (.ok () : Except ContextError Unit))
        ⟨[⟨none, some "T", some "p"⟩], none⟩
      = .error ⟨400, "BadRequest", "idPattern usage in query"⟩ :=
  ⟨(claimC9_theorem Unit (fun _ _ => .ok ())
      ⟨[⟨some "e1", some "T", none⟩, ⟨some "e2", some "T", none⟩], none⟩).1 (by decide),
   (claimC9_theorem Unit (fun _ _ => .ok ())
      ⟨[⟨none, some "T", some "p"⟩], none⟩).2 ⟨none, some "T", some "p"⟩ rfl (by decide)⟩

/-- Claim C1, counterexample.  The claim states an expression referencing
an identifier that is neither a context key nor a registered transform
fails with `InvalidExpression`.  On `c+b` against the context
`a=2, b=3`, `contextAvailable` returns the boolean `false` — no
`InvalidExpression` (or any error) is thrown. -/
theorem claimC1_counterexample :
    contextAvailable (.plus (.ident "c") (.ident "b")) [("a", .num 2), ("b", .num 3)]
      = .ok false := by
  decide

/-- Claim C1, amended.  For every expression whose tokenization succeeds
and yields some identifier that is neither a context key nor a registered
transform, `contextAvailable` returns `false` without evaluating the
expression (the evaluation-call count is `0`, so no evaluation side
effect occurs); `InvalidExpression` is raised only when tokenization or
the evaluation of a fully-validated expression throws. -/
theorem claimC1_theorem (e : JexlExpr) (ctx : Context) (ids : List String)
    (h1 : identTokens e = .ok ids)
    (h2 : ids.all (fun idf => (ctxKeys ctx).contains idf || isTransform idf) = false) :
    contextAvailableCounting e ctx = .ok (false, 0) := by
  unfold contextAvailableCounting
  simp only [h1, Except.bind, bind, h2, Bool.false_eq_true, if_false]
  rfl

/-- Claim C1, witness: the expression `c+b` against the context `a=2,
b=3` tokenizes to `[c, b]`, fails the identifier check, and yields
`(false, 0)`. -/
theorem claimC1_witness :
    identTokens (.plus (.ident "c") (.ident "b")) = .ok ["c", "b"]
    ∧ (["c", "b"].all fun idf =>
        (ctxKeys [("a", JexlValue.num 2), ("b", JexlValue.num 3)]).contains idf || isTransform idf)
      = false
    ∧ contextAvailableCounting (.plus (.ident "c") (.ident "b"))
        [("a", .num 2), ("b", .num 3)] = .ok (false, 0) :=
  ⟨by decide, by decide,
   claimC1_theorem (.plus (.ident "c") (.ident "b")) [("a", .num 2), ("b", .num 3)]
     ["c", "b"] (by decide) (by decide)⟩

/-- Claim C8, counterexample.  The claim states an item with an invalid
expression is silently omitted while valid items still apply.  A
syntactically invalid expression makes the jexl lexer throw inside the
filter callback, so the whole call — including the valid first item —
aborts with `InvalidExpression` instead of returning the valid item. -/
theorem claimC8_counterexample :
    processExpressionAttributes false
        [⟨"v", "Text", none, some (.lit (.num 1))⟩, ⟨"x", "Text", none, some (.malformed "((")⟩]
        []
      = .error (.invalidExpression "((") := by
  decide

/-- Claim C8, amended.  When no item's context check throws (its
expression, when present, tokenizes and — if fully validated — evaluates
without error), `processExpressionAttributes` returns exactly the items
passing the check, in input order, mapped through `expressionApplier`:
items with an absent expression or an out-of-context identifier are
silently dropped and valid items in the same list still apply.  An item
whose check throws (e.g. a syntactically invalid expression) instead
aborts the whole call, per the counterexample. -/
theorem claimC8_theorem (ngsi2 : Bool) (ctx : Context) (list : List ExprAttr)
    (h : list.all (fun item =>
        match item.expression with
        | none => true
        | some e => (contextAvailable e ctx).isOk) = true) :
    processExpressionAttributes ngsi2 list ctx =
      mapExc (expressionApplier ngsi2 ctx) (list.filter (passesContextCheck ctx)) := by
  have h' : ∀ item ∈ list, ∀ e, item.expression = some e → (contextAvailable e ctx).isOk = true := by
    intro item hm e he
    have hi := List.all_eq_true.mp h item hm
    rw [he] at hi
    exact hi
  unfold processExpressionAttributes
  rw [filterExc_contextCheck ctx list h']
  rfl

/-- Claim C8, witness: a list with one valid derived attribute and one
referencing the out-of-context identifier `zz` yields exactly the
transformed valid item; the invalid one is dropped without error. -/
theorem claimC8_witness :
    processExpressionAttributes false
        [⟨"v", "Text", none, some (.lit (.num 1))⟩, ⟨"w", "Text", none, some (.ident "zz")⟩]
        []
      = mapExc (expressionApplier false [])
          ([⟨"v", "Text", none, some (.lit (.num 1))⟩,
            ⟨"w", "Text", none, some (.ident "zz")⟩].filter (passesContextCheck []))
    ∧ mapExc (expressionApplier false [])
          ([⟨"v", "Text", none, some (.lit (.num 1))⟩,
            ⟨"w", "Text", none, some (.ident "zz")⟩].filter (passesContextCheck []))
      = .ok [⟨"v", "Text", .str "1", none⟩] :=
  ⟨claimC8_theorem false []
      [⟨"v", "Text", none, some (.lit (.num 1))⟩, ⟨"w", "Text", none, some (.ident "zz")⟩]
      (by decide),
   by decide⟩

/-- Claim C7, counterexample.  The claim states a `Number` attribute
whose result is neither float-looking nor a truthy integer parse is
"left as evaluated".  The evaluated literal `0` has a falsy integer
parse, so the chain falls through to the generic `String(...)` fallback:
the output value is the string `"0"`, not the number `0`. -/
theorem claimC7_counterexample :
    expressionApplier false [] ⟨"x", "Number", none, some (.lit (.num 0))⟩
      = .ok ⟨"x", "Number", .str "0", none⟩
    ∧ (expressionApplier false [] ⟨"x", "Number", none, some (.lit (.num 0))⟩).map
        (fun r => r.value) ≠ .ok (.num 0) := by
  decide

/-- Claim C7, amended.  `expressionApplier` coerces the evaluated result
per the declared type as follows: `Number` with a non-`NaN` result whose
`toString` contains a decimal point becomes the parsed float; `Number`
with a truthy (nonzero, non-`NaN`) integer parse of its string form
becomes that integer; `Number` otherwise falls through to the generic
branch and becomes the *string* coercion of the result (not "left as
evaluated"); `Boolean` is true iff the raw result is strictly equal to
the string `"true"` or the string `"1"` (no stringification of the
result); `None` becomes literal null; any other declared type becomes
the string coercion; and in every branch `object_id` is propagated
exactly when the dialect is v2 and the source attribute carries one. -/
theorem claimC7_theorem (ngsi2 : Bool) (ctx : Context) (a : ExprAttr) (e : JexlExpr)
    (raw : JexlValue) (n : Int)
    (h1 : a.expression = some e) (h2 : evalSyncJexl e ctx = .ok raw) :
    (a.type = "Boolean" → expressionApplier ngsi2 ctx a = .ok ⟨a.name, a.type,
        .bool (raw == JexlValue.str "true" || raw == JexlValue.str "1"),
        if ngsi2 && a.object_id.isSome then a.object_id else none⟩)
    ∧ (a.type = "None" → expressionApplier ngsi2 ctx a = .ok ⟨a.name, a.type, .nullv,
        if ngsi2 && a.object_id.isSome then a.object_id else none⟩)
    ∧ (a.type ≠ "Number" → a.type ≠ "Boolean" → a.type ≠ "None" →
        expressionApplier ngsi2 ctx a = .ok ⟨a.name, a.type, .str (jsToString raw),
          if ngsi2 && a.object_id.isSome then a.object_id else none⟩)
    ∧ (a.type = "Number" → isFloat raw = .ok true →
        expressionApplier ngsi2 ctx a = .ok ⟨a.name, a.type,
          (match parseFloatJs (jsToString raw) with | some q => .num q | none => .nan),
          if ngsi2 && a.object_id.isSome then a.object_id else none⟩)
    ∧ (a.type = "Number" → isFloat raw = .ok false →
        parseIntJs (jsToString raw) = some n → n ≠ 0 →
        expressionApplier ngsi2 ctx a = .ok ⟨a.name, a.type, .num (n : Rat),
          if ngsi2 && a.object_id.isSome then a.object_id else none⟩)
    ∧ (a.type = "Number" → isFloat raw = .ok false →
        (parseIntJs (jsToString raw) = none ∨ parseIntJs (jsToString raw) = some 0) →
        expressionApplier ngsi2 ctx a = .ok ⟨a.name, a.type, .str (jsToString raw),
          if ngsi2 && a.object_id.isSome then a.object_id else none⟩) := by
  obtain ⟨name, ty, oid, expr⟩ := a
  simp only at h1
  subst h1
  refine ⟨?_, ?_, ?_, ?_, ?_, ?_⟩
  · intro hty
    simp only at hty
    subst hty
    simp [expressionApplier, applyExpression, h2, Except.bind, bind, pure, Except.pure]
  · intro hty
    simp only at hty
    subst hty
    simp [expressionApplier, applyExpression, h2, Except.bind, bind, pure, Except.pure]
  · intro hn hb hnn
    simp only at hn hb hnn
    simp [expressionApplier, applyExpression, h2, Except.bind, bind, pure, Except.pure, hn, hb, hnn]
  · intro hty hf
    simp only at hty
    subst hty
    simp [expressionApplier, applyExpression, h2, hf, Except.bind, bind, pure, Except.pure]
  · intro hty hf hpi hn
    simp only at hty
    subst hty
    simp [expressionApplier, applyExpression, h2, hf, hpi, hn, Except.bind, bind, pure, Except.pure]
  · intro hty hf hpi
    simp only at hty
    subst hty
    rcases hpi with hpi | hpi <;>
      simp [expressionApplier, applyExpression, h2, hf, hpi, Except.bind, bind, pure, Except.pure]

/-- Claim C7, witness: a `Boolean` attribute whose expression evaluates
to the boolean `true` coerces to `false` — the strict comparison is
against the *string* `"true"`, which the boolean is not. -/
theorem claimC7_witness :
    expressionApplier false [] ⟨"b", "Boolean", none, some (.lit (.bool true))⟩
      = .ok ⟨"b", "Boolean", .bool false, none⟩ := by
  have h := (claimC7_theorem false [] ⟨"b", "Boolean", none, some (.lit (.bool true))⟩
      (.lit (.bool true)) (.bool true) 0 rfl rfl).1 rfl
  exact h

/-- Claim C10: confirmed.  An attribute value whose string form
float-parses to exactly `0` (such as `"0"` or `"0.0"`) is bound raw by
`extractContext`: both numeric branches are falsy, and the boolean
branches cannot match.  Moreover the numeric coercion only ever produces
a nonzero number unless it is passing the raw value through. -/
theorem claimC10_theorem :
    (∀ (n : String) (v : JexlValue), parseFloatJs (jsToString v) = some 0 →
        ctxGet (extractContext [⟨n, v⟩]) n = some v ∧ sniffValue v = v)
    ∧ (∀ (v : JexlValue) (q : Rat), sniffValue v = .num q → q ≠ 0 ∨ v = .num q) := by
  constructor
  · intro n v h
    have hs := sniffValue_raw_of_zero v h
    refine ⟨?_, hs⟩
    show ctxGet (ctxSet emptyContext n (sniffValue v)) n = some v
    rw [hs, ctxGet_ctxSet, if_pos rfl]
  · intro v q h
    have hboCase : sniffBoolOr v = .num q → q ≠ 0 ∨ v = .num q := by
      intro hb
      unfold sniffBoolOr at hb
      split_ifs at hb with ht hf
      exact Or.inr hb
    have hflCase : sniffFloat v = .num q → q ≠ 0 ∨ v = .num q := by
      intro hf
      unfold sniffFloat at hf
      rcases hpf : parseFloatJs (jsToString v) with _ | p <;> rw [hpf] at hf
      · exact hboCase hf
      · have hf2 : (if p ≠ 0 then JexlValue.num p else sniffBoolOr v) = JexlValue.num q := hf
        split_ifs at hf2 with hp
        · left
          have hq := JexlValue.num.inj hf2
          rw [← hq]
          exact hp
        · exact hboCase hf2
    unfold sniffValue at h
    rcases hpi : parseIntJs (jsToString v) with _ | m <;> rw [hpi] at h
    · exact hflCase h
    · have h2 : (if m ≠ 0 then JexlValue.num (m : Rat) else sniffFloat v) = JexlValue.num q := h
      split_ifs at h2 with hm
      · left
        have hq := JexlValue.num.inj h2
        rw [← hq]
        exact_mod_cast hm
      · exact hflCase h2

/-- Claim C10, witness: the string `"0.0"` float-parses to `0` and is
bound raw (as the string `"0.0"`, not the number `0`). -/
theorem claimC10_witness :
    parseFloatJs (jsToString (JexlValue.str "0.0")) = some 0
    ∧ ctxGet (extractContext [⟨"z", .str "0.0"⟩]) "z" = some (.str "0.0")
    ∧ sniffValue (.str "0.0") = .str "0.0" :=
  ⟨by decide,
   (claimC10_theorem.1 "z" (.str "0.0") (by decide)).1,
   (claimC10_theorem.1 "z" (.str "0.0") (by decide)).2⟩

end NGSI
